import Mathlib

/-!
Shallow embedding of `src/TextProcessor.jsx` (the single React component of
the Text-processor repository) and proofs about its message-session logic.

The component keeps four pieces of state (`messages`, `inputText`, `loading`,
`error`) plus the one-shot `welcomeMessage` flag, and exposes three event
handlers: `handleSend`, `handleSummarize`, `handleTranslate`.  The two
external collaborators (the `window.ai` summarizer and the Lingva translation
HTTP endpoint) are modelled as oracle outcomes passed into the handlers: the
handler embeddings are parameterised by the response the environment would
have delivered, which makes every branch of the JS `try`/`catch` logic an
explicit case of a total function.
-/

namespace TextProcessor

/-- One chat message, as created in `handleSend`:
`{ id: Date.now(), text: inputText, translations: {}, summary: null }`.
`language` is read by the render code (`message.language === 'en' && ...`)
but no statement in the component ever assigns it, so it is modelled as an
`Option String` field that handlers never set.  `translations` is the JS
object mapping target-language code to translated string, modelled as an
ordered association list (JS objects hold each key at most once). -/
structure Message where
  id : Nat
  text : String
  language : Option String := none
  translations : List (String × String) := []
  summary : Option String := none
  deriving Repr, DecidableEq

/-- The component state: `useState` hooks `messages`, `inputText`,
`loading`, `error`, `welcomeMessage`, in source order. -/
structure AppState where
  messages : List Message
  inputText : String
  loading : Bool
  error : Option String
  welcomeMessage : Bool
  deriving Repr, DecidableEq

/-- Initial hook values: `[]`, `''`, `false`, `null`, `true`. -/
def initState : AppState :=
  { messages := [], inputText := "", loading := false, error := none,
    welcomeMessage := true }

/-- The `languages` array of the component: six `(code, name)` pairs. -/
def languages : List (String × String) :=
  [("en", "English"), ("pt", "Portuguese"), ("es", "Spanish"),
   ("ru", "Russian"), ("tr", "Turkish"), ("fr", "French")]

/-- The six statically configured language codes. -/
def languageCodes : List String := languages.map Prod.fst

/-- The values the translate `<select>` can deliver to its `onChange`
handler: the placeholder `<option value="">` plus one option per configured
language. -/
def selectValues : List String := "" :: languages.map Prod.fst

/-- JS object lookup `t[k]` on the association-list model of a
translations object. -/
def getKey (t : List (String × String)) (k : String) : Option String :=
  (t.find? (fun p => p.1 == k)).map Prod.snd

/-- JS spread-with-computed-key `{...t, [k]: v}`: if `k` is present its
value is replaced in place, otherwise `(k, v)` is appended at the end.
(The translations objects this component builds never repeat a key.) -/
def setKey : List (String × String) → String → String → List (String × String)
  | [], k, v => [(k, v)]
  | p :: t, k, v => if p.1 == k then (k, v) :: setKey t k v else p :: setKey t k v

/-- Outcome the environment delivers to one `summarizeText` call.
`apiUnavailable` covers `window.ai`, `window.ai.summarizer`, or the
`summarize` method being absent; `createFailed` / `summarizeFailed` cover
the corresponding promise rejections; `success s` is a resolved call. -/
inductive SummarizeOutcome where
  | apiUnavailable
  | createFailed
  | summarizeFailed
  | success (summary : String)
  deriving Repr, DecidableEq

/-- The generic summarize failure string thrown by `summarizeText`
(`throw new Error('Summarization failed')`). -/
def summarizationFailedMsg : String := "Summarization failed"

/-- The generic translate failure string
(`throw new Error("Translation failed.")`) — note the trailing period —
which `translateText` also uses as the fallback value
`data.translation || "Translation failed."`. -/
def translationFailedMsg : String := "Translation failed."

/-- `summarizeText`: every non-success outcome reaches the `catch` block
and is rethrown as the generic `'Summarization failed'` error; a resolved
`summarizer.summarize(text)` call returns its string. -/
def summarizeText : SummarizeOutcome → Except String String
  | .success s => .ok s
  | _ => .error summarizationFailedMsg

/-- What one `fetch` of the Lingva endpoint can come back as:
the promise rejects (`networkError`), `response.ok` is false with some
status (`httpError`), `response.json()` rejects (`jsonError`), or a parsed
JSON body whose `translation` field is modelled as `none` when absent and
`some ""` when present but falsy. -/
inductive TranslateResponse where
  | networkError
  | httpError (status : Nat)
  | jsonError
  | jsonBody (translation : Option String)
  deriving Repr, DecidableEq

/-- `translateText`: rejection, a non-ok status, and a JSON parse failure
all throw inside the `try` and are rethrown from `catch` as
`"Translation failed."`; a parsed body returns
`data.translation || "Translation failed."` — the fallback string is a
NORMAL return value, not a thrown error. -/
def translateText : TranslateResponse → Except String String
  | .networkError => .error translationFailedMsg
  | .httpError _ => .error translationFailedMsg
  | .jsonError => .error translationFailedMsg
  | .jsonBody t =>
      .ok (match t with
           | some s => if s = "" then translationFailedMsg else s
           | none => translationFailedMsg)

/-- The fixed leading segment of the Lingva request URL, up to the
source-language path slot. -/
def lingvaApiBase : String := "https://lingva.ml/api/v1/"

/-- The URL `translateText` fetches:
`https://lingva.ml/api/v1/en/${targetLang}/${encodeURIComponent(text)}`.
`encode` stands for `encodeURIComponent`, an opaque parameter here. -/
def lingvaUrl (encode : String → String) (text targetLang : String) : String :=
  "https://lingva.ml/api/v1/en/" ++ targetLang ++ "/" ++ encode text

/-- JS `String.prototype.trim`: strips leading and trailing whitespace.
(Defined structurally over the character list so that concrete inputs
evaluate; `inputText.trim()` is only ever compared against `""`.) -/
def jsTrim (s : String) : String :=
  ⟨((s.data.dropWhile Char.isWhitespace).reverse.dropWhile
      Char.isWhitespace).reverse⟩

/-- The JS engine `TypeError` message produced by reading `message.text`
when `messages.find(...)` returned `undefined` (wording as in V8; only the
fact that it differs from the two generic failure strings matters below).
`setError(err.message)` stores it verbatim. -/
def undefinedTextTypeError : String :=
  "Cannot read properties of undefined (reading 'text')"

/-- `messages.find(m => m.id === messageId)`. -/
def findMsg (s : AppState) (mid : Nat) : Option Message :=
  s.messages.find? (fun m => m.id == mid)

/-- `prevMessages.map(msg => msg.id === messageId ? f(msg) : msg)`. -/
def updMsgs (msgs : List Message) (mid : Nat) (f : Message → Message) :
    List Message :=
  msgs.map (fun m => if m.id == mid then f m else m)

/-- `handleSend`, parameterised by `now = Date.now()`:
guard `if (!inputText.trim()) return`, then `setLoading(true)`,
`setError(null)`, append the new message, clear the input, and
`finally setLoading(false)` (the `try` body cannot throw, so the final
loading value is `false`). -/
def handleSend (now : Nat) (s : AppState) : AppState :=
  if jsTrim s.inputText = "" then s
  else
    { s with
      messages := s.messages ++
        [{ id := now, text := s.inputText, language := none,
           translations := [], summary := none }],
      inputText := "",
      loading := false,
      error := none }

/-- `handleSummarize(messageId)` with the summarizer outcome supplied by
the environment.  When the lookup finds no message, reading
`message.text` throws a `TypeError` that the `catch` stores via
`setError(err.message)`; the external capability is never consulted.
On a summarizer failure the generic message is stored and `messages` is
untouched; on success the message at that id gets `{...msg, summary}`. -/
def handleSummarize (s : AppState) (mid : Nat) (out : SummarizeOutcome) :
    AppState :=
  match findMsg s mid with
  | none =>
      { s with loading := false, error := some undefinedTextTypeError }
  | some _ =>
      match summarizeText out with
      | .error e => { s with loading := false, error := some e }
      | .ok summary =>
          { s with
            loading := false,
            error := none,
            messages := updMsgs s.messages mid
              (fun msg => { msg with summary := some summary }) }

/-- `handleTranslate(messageId, targetLang)` with the HTTP response
supplied by the environment.  Lookup failure behaves as in
`handleSummarize`; a `translateText` throw stores the generic message and
leaves `messages` untouched; a normal return merges
`{...msg.translations, [targetLang]: translation}` into the message at
that id. -/
def handleTranslate (s : AppState) (mid : Nat) (targetLang : String)
    (resp : TranslateResponse) : AppState :=
  match findMsg s mid with
  | none =>
      { s with loading := false, error := some undefinedTextTypeError }
  | some _ =>
      match translateText resp with
      | .error e => { s with loading := false, error := some e }
      | .ok translation =>
          { s with
            loading := false,
            error := none,
            messages := updMsgs s.messages mid
              (fun msg =>
                { msg with
                  translations := setKey msg.translations targetLang translation }) }

/-- The summarize button's render condition:
`message.language === 'en' && message.text.length > 150 && !message.summary`. -/
def summarizeButtonShown (m : Message) : Bool :=
  m.language == some "en" && decide (m.text.length > 150) && m.summary == none

/-- One user-visible event, carrying the oracle outcome where the handler
consults a collaborator.  `sendClick` is the send button's `onClick`,
which runs `handleSend()` and then `setWelcomeMessage(false)`. -/
inductive Event where
  | inputChange (text : String)
  | sendClick (now : Nat)
  | summarizeClick (mid : Nat) (out : SummarizeOutcome)
  | translateSelect (mid : Nat) (lang : String) (resp : TranslateResponse)
  deriving Repr

/-- One step of the component under an event. -/
def step (s : AppState) : Event → AppState
  | .inputChange t => { s with inputText := t }
  | .sendClick now =>
      let s' := handleSend now s
      { s' with welcomeMessage := false }
  | .summarizeClick mid out => handleSummarize s mid out
  | .translateSelect mid lang resp => handleTranslate s mid lang resp

/-- Events the rendered UI can actually deliver: the translate `onChange`
only ever fires with one of the `<option>` values (the `""` placeholder or
a configured code); the other events are unconstrained. -/
def uiAllowed : Event → Prop
  | .translateSelect _ lang _ => lang ∈ selectValues
  | _ => True

/-- States reachable from the initial hook values through UI events. -/
inductive Reachable : AppState → Prop where
  | init : Reachable initState
  | step : ∀ s e, Reachable s → uiAllowed e → Reachable (step s e)

/-- Events whose translate target is one of the six configured codes
(the spec's precondition on `translate`), excluding the `""` placeholder. -/
def codeAllowed : Event → Prop
  | .translateSelect _ lang _ => lang ∈ languageCodes
  | _ => True

/-- States reachable when every translate call respects the spec's
precondition on the target code. -/
inductive ReachableValid : AppState → Prop where
  | init : ReachableValid initState
  | step : ∀ s e, ReachableValid s → codeAllowed e → ReachableValid (step s e)

/-- The summarizer outcomes the `catch` in `summarizeText` converts into
the generic failure: everything except a resolved call. -/
def summarizeFails : SummarizeOutcome → Bool
  | .success _ => false
  | _ => true

/-- The fetch outcomes that make `translateText` throw: a rejected fetch,
a non-ok status, or a rejected `response.json()`.  A parsed body — even one
without a usable `translation` field — is NOT among them. -/
def translateRequestFails : TranslateResponse → Bool
  | .jsonBody _ => false
  | _ => true

/-- A concrete message used by the witness theorems. -/
def exMsg : Message := { id := 1, text := "hi" }

/-- A concrete state holding just `exMsg`, used by the witness theorems. -/
def exState : AppState :=
  { messages := [exMsg], inputText := "", loading := false, error := none,
    welcomeMessage := false }

/-- A concrete state with pending input, used by the witness theorems. -/
def exSendState : AppState := { initState with inputText := "hi" }

/-- The states the UI can observe across one `handleSend` run: `none` when
the `if (!inputText.trim()) return` guard exits before any state update;
otherwise the pending states (after `setLoading(true); setError(null)`,
and additionally after the message append and input clear) paired with the
state left once the `finally` has run. -/
def handleSendTrace (now : Nat) (s : AppState) :
    Option (List AppState × AppState) :=
  if jsTrim s.inputText = "" then none
  else
    some ([{ s with loading := true, error := none },
           { s with
              loading := true,
              error := none,
              messages := s.messages ++
                [{ id := now, text := s.inputText, language := none,
                   translations := [], summary := none }],
              inputText := "" }],
          handleSend now s)

/-- The states visible across one `handleSummarize` run: the pending state
held while the summarizer call is awaited, paired with the settled state. -/
def handleSummarizeTrace (s : AppState) (mid : Nat) (out : SummarizeOutcome) :
    List AppState × AppState :=
  ([{ s with loading := true, error := none }], handleSummarize s mid out)

/-- The states visible across one `handleTranslate` run: the pending state
held while the fetch is awaited, paired with the settled state. -/
def handleTranslateTrace (s : AppState) (mid : Nat) (lang : String)
    (resp : TranslateResponse) : List AppState × AppState :=
  ([{ s with loading := true, error := none }], handleTranslate s mid lang resp)

/-! ## Helper lemmas about the association-list and list-update models -/

theorem getKey_setKey_self (t : List (String × String)) (k v : String) :
    getKey (setKey t k v) k = some v := by
  induction t with
  | nil => simp [setKey, getKey, List.find?]
  | cons p t ih =>
    cases hpk : p.1 == k with
    | true => simp [setKey, getKey, hpk, List.find?]
    | false =>
      simp only [setKey, hpk, Bool.false_eq_true, if_false]
      simpa [getKey, List.find?, hpk] using ih

theorem getKey_setKey_ne (t : List (String × String)) (k v k' : String)
    (hne : k' ≠ k) :
    getKey (setKey t k v) k' = getKey t k' := by
  have hkk' : (k == k') = false := by
    simp only [beq_eq_false_iff_ne]
    exact fun h => hne h.symm
  induction t with
  | nil => simp [setKey, getKey, List.find?, hkk']
  | cons p t ih =>
    cases hpk : p.1 == k with
    | true =>
      have hp1 : p.1 = k := by simpa [beq_iff_eq] using hpk
      have hpk' : (p.1 == k') = false := by rw [hp1]; exact hkk'
      simp only [setKey, hpk, if_true]
      simp only [getKey, List.find?, hkk', hpk'] at ih ⊢
      exact ih
    | false =>
      simp only [setKey, hpk, Bool.false_eq_true, if_false]
      cases hpk' : p.1 == k' with
      | true => simp [getKey, List.find?, hpk']
      | false => simpa [getKey, List.find?, hpk'] using ih

theorem mem_setKey (t : List (String × String)) (k v : String)
    (kv : String × String) (hm : kv ∈ setKey t k v) :
    kv.1 = k ∨ kv ∈ t := by
  induction t with
  | nil =>
    simp only [setKey, List.mem_singleton] at hm
    exact Or.inl (by simp [hm])
  | cons p t ih =>
    by_cases hpk : (p.1 == k) = true
    · simp only [setKey, hpk, if_true, List.mem_cons] at hm
      rcases hm with h | h
      · exact Or.inl (by simp [h])
      · rcases ih h with h' | h'
        · exact Or.inl h'
        · exact Or.inr (List.mem_cons_of_mem _ h')
    · simp only [setKey, hpk, if_false] at hm
      rcases List.mem_cons.mp hm with h | h
      · exact Or.inr (h ▸ List.mem_cons_self _ _)
      · rcases ih h with h' | h'
        · exact Or.inl h'
        · exact Or.inr (List.mem_cons_of_mem _ h')

theorem find?_updMsgs (msgs : List Message) (mid : Nat) (f : Message → Message)
    (hf : ∀ m, (f m).id = m.id) :
    (updMsgs msgs mid f).find? (fun m => m.id == mid) =
      (msgs.find? (fun m => m.id == mid)).map f := by
  induction msgs with
  | nil => rfl
  | cons m t ih =>
    cases hm : m.id == mid with
    | true =>
      have hfm : ((f m).id == mid) = true := by rw [hf]; exact hm
      simp [updMsgs, hm, List.find?, hfm]
    | false =>
      simpa [updMsgs, hm, List.find?] using ih

theorem mem_updMsgs (msgs : List Message) (mid : Nat) (f : Message → Message)
    (m : Message) (hm : m ∈ updMsgs msgs mid f) :
    ∃ m' ∈ msgs, m = f m' ∨ m = m' := by
  rcases List.mem_map.mp hm with ⟨m', hm', he⟩
  refine ⟨m', hm', ?_⟩
  by_cases h : (m'.id == mid) = true
  · exact Or.inl (by simp [h] at he; exact he.symm)
  · exact Or.inr (by simp [h] at he; exact he.symm)

theorem length_updMsgs (msgs : List Message) (mid : Nat)
    (f : Message → Message) : (updMsgs msgs mid f).length = msgs.length := by
  simp [updMsgs]

theorem get_updMsgs (msgs : List Message) (mid : Nat) (f : Message → Message)
    (i : Nat) (h1 : i < msgs.length) (h2 : i < (updMsgs msgs mid f).length) :
    (updMsgs msgs mid f).get ⟨i, h2⟩ =
      if (msgs.get ⟨i, h1⟩).id == mid then f (msgs.get ⟨i, h1⟩)
      else msgs.get ⟨i, h1⟩ := by
  simp [updMsgs]

theorem loading_handleSummarize (s : AppState) (mid : Nat)
    (out : SummarizeOutcome) : (handleSummarize s mid out).loading = false := by
  unfold handleSummarize
  cases findMsg s mid with
  | none => rfl
  | some m => cases out <;> simp [summarizeText]

theorem loading_handleTranslate (s : AppState) (mid : Nat) (lang : String)
    (resp : TranslateResponse) :
    (handleTranslate s mid lang resp).loading = false := by
  unfold handleTranslate
  cases findMsg s mid with
  | none => rfl
  | some m =>
    cases resp with
    | jsonBody t => simp [translateText]
    | networkError => simp [translateText]
    | httpError st => simp [translateText]
    | jsonError => simp [translateText]

theorem messages_handleSummarize (s : AppState) (mid : Nat)
    (out : SummarizeOutcome) :
    (handleSummarize s mid out).messages = s.messages ∨
    ∃ v, (handleSummarize s mid out).messages =
      updMsgs s.messages mid (fun msg => { msg with summary := some v }) := by
  unfold handleSummarize
  cases findMsg s mid with
  | none => exact Or.inl rfl
  | some m0 =>
    cases out with
    | success v => exact Or.inr ⟨v, rfl⟩
    | apiUnavailable => exact Or.inl rfl
    | createFailed => exact Or.inl rfl
    | summarizeFailed => exact Or.inl rfl

theorem messages_handleTranslate (s : AppState) (mid : Nat) (lang : String)
    (resp : TranslateResponse) :
    (handleTranslate s mid lang resp).messages = s.messages ∨
    ∃ v, (handleTranslate s mid lang resp).messages =
      updMsgs s.messages mid
        (fun msg => { msg with translations := setKey msg.translations lang v }) := by
  unfold handleTranslate
  cases findMsg s mid with
  | none => exact Or.inl rfl
  | some m0 =>
    cases resp with
    | jsonBody t => exact Or.inr ⟨_, rfl⟩
    | networkError => exact Or.inl rfl
    | httpError st => exact Or.inl rfl
    | jsonError => exact Or.inl rfl

theorem findMsg_handleTranslate_ok (s : AppState) (mid : Nat) (lang v : String)
    (r : TranslateResponse) (m0 : Message) (hfind : findMsg s mid = some m0)
    (hr : translateText r = .ok v) :
    findMsg (handleTranslate s mid lang r) mid =
      some { m0 with translations := setKey m0.translations lang v } := by
  have hmsgs : (handleTranslate s mid lang r).messages =
      updMsgs s.messages mid
        (fun msg => { msg with translations := setKey msg.translations lang v }) := by
    simp [handleTranslate, hfind, hr]
  unfold findMsg
  rw [hmsgs, find?_updMsgs s.messages mid
    (fun msg => { msg with translations := setKey msg.translations lang v })
    (fun m => rfl)]
  unfold findMsg at hfind
  rw [hfind]
  rfl

/-! ## Claim theorems -/

/-- C3: for every input whose trim is non-empty, `handleSend` appends
exactly one new message whose `text` is the original untrimmed input, with
empty translations and no summary, and clears `error` and the input
buffer; for empty or whitespace-only input it is a no-op, leaving the
whole state unchanged. -/
theorem send_appends_or_noop (now : Nat) (s : AppState) :
    (jsTrim s.inputText ≠ "" →
      (handleSend now s).messages.length = s.messages.length + 1 ∧
      (handleSend now s).messages.take s.messages.length = s.messages ∧
      (handleSend now s).messages.getLast? =
        some { id := now, text := s.inputText, language := none,
               translations := [], summary := none } ∧
      (handleSend now s).inputText = "" ∧
      (handleSend now s).error = none) ∧
    (jsTrim s.inputText = "" → handleSend now s = s) := by
  constructor
  · intro h
    refine ⟨?_, ?_, ?_, ?_, ?_⟩ <;>
      simp [handleSend, h, List.take_left, List.getLast?_concat]
  · intro h
    simp [handleSend, h]

/-- Witness for C3 at the inputs `" hi "` (append case, text stored
untrimmed) and `""` (no-op case). -/
theorem send_appends_or_noop_witness :
    (jsTrim " hi " ≠ "" ∧
      (handleSend 7 { initState with inputText := " hi " }).messages.getLast? =
        some { id := 7, text := " hi ", language := none,
               translations := [], summary := none }) ∧
    (jsTrim "" = "" ∧ handleSend 7 initState = initState) := by
  constructor
  · exact ⟨by decide,
      ((send_appends_or_noop 7 { initState with inputText := " hi " }).1
        (by decide)).2.2.1⟩
  · exact ⟨by decide, (send_appends_or_noop 7 initState).2 (by decide)⟩

/-- C8: the Lingva request URL built by `translateText` always carries the
English code in its source-language path slot, for every text and every
target language; and `"en"` is indeed the code the `languages` table
assigns to English. -/
theorem translate_source_lang_hardcoded (encode : String → String)
    (text targetLang : String) :
    lingvaUrl encode text targetLang =
      lingvaApiBase ++ "en" ++ "/" ++ targetLang ++ "/" ++ encode text ∧
    (languages.find? (fun p => p.2 == "English")).map Prod.fst = some "en" := by
  constructor
  · show "https://lingva.ml/api/v1/en/" ++ targetLang ++ "/" ++ encode text = _
    have h : lingvaApiBase ++ "en" ++ "/" = "https://lingva.ml/api/v1/en/" := by
      decide
    rw [← h]
  · decide

/-- C6: a successful summarize on an existing message sets exactly its
`summary` field to the collaborator's string; its other fields and every
message with a different id are unchanged. -/
theorem summarize_success_updates_summary (s : AppState) (mid : Nat)
    (v : String) (m0 : Message) (hfind : findMsg s mid = some m0) :
    findMsg (handleSummarize s mid (.success v)) mid =
      some { m0 with summary := some v } ∧
    (handleSummarize s mid (.success v)).messages.length =
      s.messages.length ∧
    ∀ i : Nat, ∀ m, s.messages[i]? = some m → m.id ≠ mid →
      (handleSummarize s mid (.success v)).messages[i]? = s.messages[i]? := by
  have hmsgs : (handleSummarize s mid (.success v)).messages =
      updMsgs s.messages mid (fun msg => { msg with summary := some v }) := by
    simp [handleSummarize, hfind, summarizeText]
  refine ⟨?_, ?_, ?_⟩
  · unfold findMsg
    rw [hmsgs, find?_updMsgs s.messages mid
      (fun msg => { msg with summary := some v }) (fun m => rfl)]
    unfold findMsg at hfind
    rw [hfind]
    rfl
  · rw [hmsgs, length_updMsgs]
  · intro i m hm hid
    rw [hmsgs]
    unfold updMsgs
    rw [List.getElem?_map, hm]
    have hbeq : (m.id == mid) = false := by
      simpa [beq_eq_false_iff_ne] using hid
    simp only [Option.map_some', hbeq, Bool.false_eq_true, if_false]

/-- Witness for C6: summarizing `exMsg` with a stub returning `"short"`
stores exactly that summary. -/
theorem summarize_success_updates_summary_witness :
    findMsg exState 1 = some exMsg ∧
    findMsg (handleSummarize exState 1 (.success "short")) 1 =
      some { exMsg with summary := some "short" } := by
  exact ⟨by decide,
    (summarize_success_updates_summary exState 1 "short" exMsg (by decide)).1⟩

/-- C5: a summarize or translate call on an existing message that fails
(collaborator unavailable, collaborator error, or failed HTTP request)
leaves the message list — hence the target message — unchanged, and sets
the error to the generic `"Summarization failed"` respectively
`"Translation failed."` string. -/
theorem failed_enrichment_frame (s : AppState) (mid : Nat) (lang : String)
    (m0 : Message) (hfind : findMsg s mid = some m0) :
    (∀ out, summarizeFails out = true →
      (handleSummarize s mid out).messages = s.messages ∧
      (handleSummarize s mid out).error = some "Summarization failed") ∧
    (∀ resp, translateRequestFails resp = true →
      (handleTranslate s mid lang resp).messages = s.messages ∧
      (handleTranslate s mid lang resp).error = some "Translation failed.") := by
  constructor
  · intro out hout
    cases out <;>
      simp_all [handleSummarize, hfind, summarizeText, summarizeFails,
        summarizationFailedMsg]
  · intro resp hresp
    cases resp <;>
      simp_all [handleTranslate, hfind, translateText, translateRequestFails,
        translationFailedMsg]

/-- Witness for C5: an unavailable summarizer and a 500-status translate
on `exMsg`. -/
theorem failed_enrichment_frame_witness :
    findMsg exState 1 = some exMsg ∧
    (handleSummarize exState 1 .apiUnavailable).messages = exState.messages ∧
    (handleSummarize exState 1 .apiUnavailable).error =
      some "Summarization failed" ∧
    (handleTranslate exState 1 "fr" (.httpError 500)).messages =
      exState.messages ∧
    (handleTranslate exState 1 "fr" (.httpError 500)).error =
      some "Translation failed." := by
  have h := failed_enrichment_frame exState 1 "fr" exMsg (by decide)
  exact ⟨by decide, (h.1 .apiUnavailable rfl).1, (h.1 .apiUnavailable rfl).2,
    (h.2 (.httpError 500) rfl).1, (h.2 (.httpError 500) rfl).2⟩

/-- C7: for each operation that starts (a non-guarded send, any summarize,
any translate), every state of its pending lifetime has `loading = true`,
and the settled state has `loading = false` — whether the outcome is a
success or a failure. -/
theorem busy_during_pending_false_after_settling (now : Nat) (s : AppState)
    (mid : Nat) (lang : String) (out : SummarizeOutcome)
    (resp : TranslateResponse) :
    (∀ pend settled, handleSendTrace now s = some (pend, settled) →
      (∀ st ∈ pend, st.loading = true) ∧ settled.loading = false) ∧
    ((∀ st ∈ (handleSummarizeTrace s mid out).1, st.loading = true) ∧
      (handleSummarizeTrace s mid out).2.loading = false) ∧
    ((∀ st ∈ (handleTranslateTrace s mid lang resp).1, st.loading = true) ∧
      (handleTranslateTrace s mid lang resp).2.loading = false) := by
  refine ⟨?_, ⟨?_, ?_⟩, ⟨?_, ?_⟩⟩
  · intro pend settled h
    by_cases hg : jsTrim s.inputText = ""
    · simp [handleSendTrace, hg] at h
    · rw [handleSendTrace, if_neg hg] at h
      injection h with h
      obtain ⟨hp, hs⟩ := Prod.mk.injEq .. ▸ h
      subst hp
      subst hs
      constructor
      · intro st hst
        rcases List.mem_cons.mp hst with rfl | hst
        · rfl
        · rcases List.mem_cons.mp hst with rfl | hst
          · rfl
          · simp at hst
      · simp [handleSend, hg]
  · intro st hst
    rcases List.mem_cons.mp hst with rfl | hst
    · rfl
    · simp at hst
  · exact loading_handleSummarize s mid out
  · intro st hst
    rcases List.mem_cons.mp hst with rfl | hst
    · rfl
    · simp at hst
  · exact loading_handleTranslate s mid lang resp

/-- Witness for C7: a concrete send, a failing summarize, and a successful
translate all settle with the busy flag cleared, and their pending states
carry it set. -/
theorem busy_during_pending_false_after_settling_witness :
    (handleSend 7 exSendState).loading = false ∧
    ({ exSendState with loading := true, error := none } : AppState).loading
      = true ∧
    (handleSummarizeTrace exState 1 .apiUnavailable).2.loading = false ∧
    (handleTranslateTrace exState 1 "es" (.jsonBody (some "Hola"))).2.loading
      = false := by
  have h := busy_during_pending_false_after_settling 7 exSendState 1 "es"
    .apiUnavailable (.jsonBody (some "Hola"))
  have he : handleSendTrace 7 exSendState =
      some ([{ exSendState with loading := true, error := none },
             { exSendState with
                loading := true,
                error := none,
                messages := exSendState.messages ++
                  [{ id := 7, text := exSendState.inputText, language := none,
                     translations := [], summary := none }],
                inputText := "" }],
            handleSend 7 exSendState) := by
    rw [handleSendTrace, if_neg (by decide)]
  have hsend := h.1 _ _ he
  exact ⟨hsend.2, hsend.1 _ (List.mem_cons_self _ _), h.2.1.2, h.2.2.2⟩

/-- C4: two successful translates on the same existing message merge into
its translations object: different target codes both land with their own
returned values; repeating the same target code overwrites that single
entry and leaves every other key's value unchanged. -/
theorem translate_merge_and_overwrite (s : AppState) (mid : Nat)
    (L1 L2 v1 v2 : String) (r1 r2 : TranslateResponse) (m0 : Message)
    (hfind : findMsg s mid = some m0)
    (h1 : translateText r1 = .ok v1) (h2 : translateText r2 = .ok v2) :
    (L1 ≠ L2 →
      ∃ m, findMsg (handleTranslate (handleTranslate s mid L1 r1) mid L2 r2)
          mid = some m ∧
        getKey m.translations L1 = some v1 ∧
        getKey m.translations L2 = some v2) ∧
    (∃ m, findMsg (handleTranslate (handleTranslate s mid L1 r1) mid L1 r2)
        mid = some m ∧
      getKey m.translations L1 = some v2 ∧
      ∀ k, k ≠ L1 → getKey m.translations k = getKey m0.translations k) := by
  have f1 := findMsg_handleTranslate_ok s mid L1 v1 r1 m0 hfind h1
  constructor
  · intro hne
    have f2 := findMsg_handleTranslate_ok _ mid L2 v2 r2 _ f1 h2
    refine ⟨_, f2, ?_, ?_⟩
    · exact (getKey_setKey_ne _ L2 v2 L1 hne).trans
        (getKey_setKey_self _ L1 v1)
    · exact getKey_setKey_self _ L2 v2
  · have f2 := findMsg_handleTranslate_ok _ mid L1 v2 r2 _ f1 h2
    refine ⟨_, f2, ?_, ?_⟩
    · exact getKey_setKey_self _ L1 v2
    · intro k hk
      exact (getKey_setKey_ne _ L1 v2 k hk).trans
        (getKey_setKey_ne _ L1 v1 k hk)

/-- Witness for C4: translating `exMsg` to Spanish then French keeps both
entries; translating to Spanish twice keeps the second value only. -/
theorem translate_merge_and_overwrite_witness :
    ("es" : String) ≠ "fr" ∧
    (∃ m, findMsg (handleTranslate (handleTranslate exState 1 "es"
        (.jsonBody (some "Hola"))) 1 "fr" (.jsonBody (some "Bonjour"))) 1 =
        some m ∧
      getKey m.translations "es" = some "Hola" ∧
      getKey m.translations "fr" = some "Bonjour") ∧
    (∃ m, findMsg (handleTranslate (handleTranslate exState 1 "es"
        (.jsonBody (some "Hola"))) 1 "es" (.jsonBody (some "Hola!"))) 1 =
        some m ∧
      getKey m.translations "es" = some "Hola!" ∧
      ∀ k, k ≠ "es" → getKey m.translations k = getKey exMsg.translations k) := by
  refine ⟨by decide, ?_, ?_⟩
  · exact (translate_merge_and_overwrite exState 1 "es" "fr" "Hola" "Bonjour"
      (.jsonBody (some "Hola")) (.jsonBody (some "Bonjour")) exMsg (by decide)
      rfl rfl).1 (by decide)
  · exact (translate_merge_and_overwrite exState 1 "es" "es" "Hola" "Hola!"
      (.jsonBody (some "Hola")) (.jsonBody (some "Hola!")) exMsg (by decide)
      rfl rfl).2

/-- C1 counterexample: a success-status response whose parsed body has no
`translation` field is NOT treated like a non-success status — the error
stays cleared and the translations object changes: the target code gets
the fallback string `"Translation failed."` stored as its translation. -/
theorem malformed_body_not_treated_as_failure :
    (handleTranslate exState 1 "es" (.jsonBody none)).error = none ∧
    (handleTranslate exState 1 "es" (.jsonBody none)).messages ≠
      exState.messages ∧
    (handleTranslate exState 1 "es" (.jsonBody none)).messages =
      [{ exMsg with translations := [("es", "Translation failed.")] }] := by
  decide

/-- C1 amended: a success-status response whose body parses but lacks a
`translation` field (or carries a falsy one) is treated as a SUCCESSFUL
translation of the fallback string `"Translation failed."`: that string is
stored under the target code and the error stays cleared.  Only a rejected
fetch, a non-success HTTP status, or an unparsable body are treated as
failures (here: a non-success status leaves the messages unchanged and
sets the generic error). -/
theorem malformed_body_stores_fallback (s : AppState) (mid : Nat)
    (lang : String) (m0 : Message) (hfind : findMsg s mid = some m0)
    (t : Option String) (ht : t = none ∨ t = some "") :
    (handleTranslate s mid lang (.jsonBody t)).error = none ∧
    findMsg (handleTranslate s mid lang (.jsonBody t)) mid =
      some { m0 with
        translations := setKey m0.translations lang translationFailedMsg } ∧
    ∀ st : Nat,
      (handleTranslate s mid lang (.httpError st)).messages = s.messages ∧
      (handleTranslate s mid lang (.httpError st)).error =
        some translationFailedMsg := by
  have hok : translateText (.jsonBody t) = .ok translationFailedMsg := by
    rcases ht with rfl | rfl <;> simp [translateText]
  refine ⟨?_, ?_, ?_⟩
  · simp [handleTranslate, hfind, hok]
  · exact findMsg_handleTranslate_ok s mid lang translationFailedMsg _ m0
      hfind hok
  · intro st
    exact ⟨by simp [handleTranslate, hfind, translateText],
      by simp [handleTranslate, hfind, translateText]⟩

/-- Witness for the amended C1: a body without a `translation` field,
received for `exMsg`, stores the fallback string under `"pt"`. -/
theorem malformed_body_stores_fallback_witness :
    (handleTranslate exState 1 "pt" (.jsonBody none)).error = none ∧
    findMsg (handleTranslate exState 1 "pt" (.jsonBody none)) 1 =
      some { exMsg with
        translations := setKey exMsg.translations "pt" translationFailedMsg } := by
  have h := malformed_body_stores_fallback exState 1 "pt" exMsg (by decide)
    none (Or.inl rfl)
  exact ⟨h.1, h.2.1⟩

/-- C10: a summarize or translate call whose message id matches nothing
fails before consulting any collaborator (its result does not depend on
the supplied outcome), leaves the message list unchanged, clears busy, and
stores the engine-level lookup `TypeError` message — not one of the two
generic failure strings; and under the precondition that the message
exists the branch is unreachable (no member of the list has the id). -/
theorem missing_message_short_circuits (s : AppState) (mid : Nat)
    (lang : String) (out : SummarizeOutcome) (resp : TranslateResponse)
    (h : findMsg s mid = none) :
    (¬ ∃ m ∈ s.messages, m.id = mid) ∧
    (handleSummarize s mid out).messages = s.messages ∧
    (handleSummarize s mid out).loading = false ∧
    (handleSummarize s mid out).error = some undefinedTextTypeError ∧
    (handleTranslate s mid lang resp).messages = s.messages ∧
    (handleTranslate s mid lang resp).loading = false ∧
    (handleTranslate s mid lang resp).error = some undefinedTextTypeError ∧
    undefinedTextTypeError ≠ summarizationFailedMsg ∧
    undefinedTextTypeError ≠ translationFailedMsg ∧
    (∀ out2, handleSummarize s mid out2 = handleSummarize s mid out) ∧
    (∀ resp2, handleTranslate s mid lang resp2 =
      handleTranslate s mid lang resp) := by
  have hs : ∀ o, handleSummarize s mid o =
      { s with loading := false, error := some undefinedTextTypeError } := by
    intro o
    simp [handleSummarize, h]
  have htr : ∀ r, handleTranslate s mid lang r =
      { s with loading := false, error := some undefinedTextTypeError } := by
    intro r
    simp [handleTranslate, h]
  refine ⟨?_, ?_, ?_, ?_, ?_, ?_, ?_, by decide, by decide, ?_, ?_⟩
  · rintro ⟨m, hm, rfl⟩
    exact List.find?_eq_none.mp h m hm (by simp)
  · rw [hs out]
  · rw [hs out]
  · rw [hs out]
  · rw [htr resp]
  · rw [htr resp]
  · rw [htr resp]
  · intro out2
    rw [hs out2, hs out]
  · intro resp2
    rw [htr resp2, htr resp]

/-- Witness for C10: id 99 matches nothing in `exState`; both operations
store the lookup error. -/
theorem missing_message_short_circuits_witness :
    findMsg exState 99 = none ∧
    (handleSummarize exState 99 .apiUnavailable).error =
      some undefinedTextTypeError ∧
    (handleTranslate exState 99 "es" .networkError).error =
      some undefinedTextTypeError := by
  have h := missing_message_short_circuits exState 99 "es" .apiUnavailable
    .networkError (by decide)
  exact ⟨by decide, h.2.2.2.1, h.2.2.2.2.2.2.1⟩

/-- C9: in every UI-reachable state, every message's `language` field is
still unset — no operation populates it — and consequently the summarize
button's eligibility condition (`language === 'en'`, length over 150, no
summary yet) evaluates to false for every message. -/
theorem language_never_populated (s : AppState) (h : Reachable s) :
    ∀ m ∈ s.messages, m.language = none ∧ summarizeButtonShown m = false := by
  have shown : ∀ m : Message, m.language = none →
      summarizeButtonShown m = false := by
    intro m hm
    simp [summarizeButtonShown, hm]
  have inv : ∀ m ∈ s.messages, m.language = none := by
    clear shown
    induction h with
    | init => intro m hm; simp [initState] at hm
    | step s' e hr hui ih =>
      intro m hm
      cases e with
      | inputChange t => exact ih m hm
      | sendClick now =>
        by_cases hg : jsTrim s'.inputText = ""
        · have he : (step s' (.sendClick now)).messages = s'.messages := by
            simp [step, handleSend, hg]
          rw [he] at hm
          exact ih _ hm
        · have he : (step s' (.sendClick now)).messages =
              s'.messages ++
                [{ id := now, text := s'.inputText, language := none,
                   translations := [], summary := none }] := by
            simp [step, handleSend, hg]
          rw [he] at hm
          rcases List.mem_append.mp hm with h' | h'
          · exact ih _ h'
          · rw [List.mem_singleton] at h'
            rw [h']
      | summarizeClick mid out =>
        have hm' : m ∈ (handleSummarize s' mid out).messages := hm
        rcases messages_handleSummarize s' mid out with he | ⟨v, he⟩
        · rw [he] at hm'
          exact ih _ hm'
        · rw [he] at hm'
          rcases mem_updMsgs _ _ _ _ hm' with ⟨m', hmem, he' | he'⟩
          · rw [he']
            exact ih m' hmem
          · rw [he']
            exact ih m' hmem
      | translateSelect mid lang resp =>
        have hm' : m ∈ (handleTranslate s' mid lang resp).messages := hm
        rcases messages_handleTranslate s' mid lang resp with he | ⟨v, he⟩
        · rw [he] at hm'
          exact ih _ hm'
        · rw [he] at hm'
          rcases mem_updMsgs _ _ _ _ hm' with ⟨m', hmem, he' | he'⟩
          · rw [he']
            exact ih m' hmem
          · rw [he']
            exact ih m' hmem
  exact fun m hm => ⟨inv m hm, shown m (inv m hm)⟩

/-- Witness for C9: the state reached by typing `"hi"` and sending it is
reachable, and its one message has no language and no summarize button. -/
theorem language_never_populated_witness :
    ({ id := 7, text := "hi", language := none, translations := [],
       summary := none } : Message).language = none ∧
    summarizeButtonShown
      { id := 7, text := "hi", language := none, translations := [],
        summary := none } = false := by
  have hr : Reachable (step (step initState (.inputChange "hi"))
      (.sendClick 7)) :=
    Reachable.step _ _ (Reachable.step _ _ Reachable.init trivial) trivial
  exact language_never_populated _ hr _ (by decide)

/-- C2 counterexample: the claimed invariant fails on a UI-reachable
state.  The translate `<select>` also exposes the placeholder
`<option value="">`, and re-selecting it fires `handleTranslate` with the
empty-string target code; if the service then answers with a parsed body
carrying a `translation`, the key `""` — not one of the six configured
codes — is stored in the message's translations object. -/
theorem translations_key_outside_configured :
    ¬ (∀ s, Reachable s → ∀ m ∈ s.messages, ∀ kv ∈ m.translations,
        kv.1 ∈ languageCodes) := by
  intro hinv
  have hr : Reachable (step (step (step initState (.inputChange "hi"))
      (.sendClick 1)) (.translateSelect 1 "" (.jsonBody (some "X")))) :=
    Reachable.step _ _
      (Reachable.step _ _ (Reachable.step _ _ Reachable.init trivial) trivial)
      (show ("" : String) ∈ selectValues by decide)
  have hmem := hinv _ hr
    { id := 1, text := "hi", language := none,
      translations := [("", "X")], summary := none }
    (by decide) ("", "X") (by decide)
  exact absurd hmem (by decide)

/-- C2 amended: the invariant holds for every state reachable when each
translate call's target code is one of the six configured codes (the
spec's stated precondition): then no message's translations object ever
holds a key outside those codes.  As stated over all UI events the claim
fails, because the select's `""` placeholder value can also reach
`handleTranslate` (see the counterexample). -/
theorem translations_keys_within_configured (s : AppState)
    (h : ReachableValid s) :
    ∀ m ∈ s.messages, ∀ kv ∈ m.translations, kv.1 ∈ languageCodes := by
  induction h with
  | init => intro m hm; simp [initState] at hm
  | step s' e hr hui ih =>
    intro m hm kv hkv
    cases e with
    | inputChange t => exact ih m hm kv hkv
    | sendClick now =>
      by_cases hg : jsTrim s'.inputText = ""
      · have he : (step s' (.sendClick now)).messages = s'.messages := by
          simp [step, handleSend, hg]
        rw [he] at hm
        exact ih m hm kv hkv
      · have he : (step s' (.sendClick now)).messages =
            s'.messages ++
              [{ id := now, text := s'.inputText, language := none,
                 translations := [], summary := none }] := by
          simp [step, handleSend, hg]
        rw [he] at hm
        rcases List.mem_append.mp hm with h' | h'
        · exact ih m h' kv hkv
        · rw [List.mem_singleton] at h'
          subst h'
          simp at hkv
    | summarizeClick mid out =>
      have hm' : m ∈ (handleSummarize s' mid out).messages := hm
      rcases messages_handleSummarize s' mid out with he | ⟨v, he⟩
      · rw [he] at hm'
        exact ih m hm' kv hkv
      · rw [he] at hm'
        rcases mem_updMsgs _ _ _ _ hm' with ⟨m', hmem, he' | he'⟩
        · subst he'
          exact ih m' hmem kv hkv
        · subst he'
          exact ih m hmem kv hkv
    | translateSelect mid lang resp =>
      have hlang : lang ∈ languageCodes := hui
      have hm' : m ∈ (handleTranslate s' mid lang resp).messages := hm
      rcases messages_handleTranslate s' mid lang resp with he | ⟨v, he⟩
      · rw [he] at hm'
        exact ih m hm' kv hkv
      · rw [he] at hm'
        rcases mem_updMsgs _ _ _ _ hm' with ⟨m', hmem, he' | he'⟩
        · subst he'
          rcases mem_setKey m'.translations lang v kv hkv with hk | hk
          · rw [hk]
            exact hlang
          · exact ih m' hmem kv hk
        · subst he'
          exact ih m hmem kv hkv

/-- Witness for the amended C2: after sending `"hi"` and translating it to
Spanish, the stored key is one of the six configured codes. -/
theorem translations_keys_within_configured_witness :
    ("es" : String) ∈ languageCodes := by
  have hr : ReachableValid (step (step (step initState (.inputChange "hi"))
      (.sendClick 1)) (.translateSelect 1 "es" (.jsonBody (some "Hola")))) :=
    ReachableValid.step _ _
      (ReachableValid.step _ _
        (ReachableValid.step _ _ ReachableValid.init trivial) trivial)
      (show ("es" : String) ∈ languageCodes by decide)
  exact translations_keys_within_configured _ hr
    { id := 1, text := "hi", language := none,
      translations := [("es", "Hola")], summary := none }
    (by decide) ("es", "Hola") (by decide)

end TextProcessor
